import Mathlib

/-!
Shallow embedding of the configuration-resolution core and the cancellation
primitive of the parblo-intangbo-m driver (src/config.rs, src/cancel.rs,
src/main.rs), together with theorems settling the specification claims.

Modelling conventions:
* Rust `Result<T, anyhow::Error>` is embedded as `Except String T`; the
  Chinese error strings of the source are kept where convenient (the inner
  ASCII quotes of the source messages are dropped, which no claim observes).
* `f32` axis-ratio values are embedded as `ℚ`: the source only compares them
  with `0`, `1` and each other, and the comparison results claimed are
  identical for any ordered field (a NaN fails the source's range check and
  is covered by the "outside [0,1]" error case).
* `u16` is embedded as `Nat` (no claim exercises overflow).
* Side-effecting callback invocation (boxed closures in the source) is
  embedded by naming callbacks with `Nat` identifiers and recording each
  invocation in an output trace.
-/

/-- The evdev key codes reachable from the keymap vocabulary of
`ImmediateKeymap::try_from` (src/config.rs lines 130-156). -/
inductive EV_KEY where
  | KEY_A | KEY_B | KEY_C | KEY_D | KEY_E | KEY_F | KEY_G | KEY_H
  | KEY_I | KEY_J | KEY_K | KEY_L | KEY_M | KEY_N | KEY_O | KEY_P
  | KEY_Q | KEY_R | KEY_S | KEY_T | KEY_U | KEY_V | KEY_W | KEY_X
  | KEY_Y | KEY_Z
  | KEY_0 | KEY_1 | KEY_2 | KEY_3 | KEY_4 | KEY_5 | KEY_6 | KEY_7
  | KEY_8 | KEY_9
  | KEY_MINUS | KEY_EQUAL | KEY_BACKSLASH | KEY_GRAVE | KEY_LEFTBRACE
  | KEY_RIGHTBRACE | KEY_SEMICOLON | KEY_APOSTROPHE | KEY_COMMA | KEY_DOT
  | KEY_SLASH
  | KEY_ESC | KEY_TAB | KEY_BACKSPACE | KEY_ENTER | KEY_SPACE | KEY_HOME
  | KEY_END | KEY_PAGEUP | KEY_PAGEDOWN | KEY_INSERT | KEY_DELETE
  | KEY_LEFTCTRL | KEY_LEFTSHIFT | KEY_LEFTALT | KEY_LEFTMETA
  deriving DecidableEq, Repr

/-- The fixed symbolic-key vocabulary of the `match_key!` table in
`ImmediateKeymap::try_from` (src/config.rs lines 130-156): `some` on a
recognized token, `none` on anything else (the source's error arm). -/
def matchKey (s : String) : Option EV_KEY :=
  match s with
  | "a" => some .KEY_A
  | "b" => some .KEY_B
  | "c" => some .KEY_C
  | "d" => some .KEY_D
  | "e" => some .KEY_E
  | "f" => some .KEY_F
  | "g" => some .KEY_G
  | "h" => some .KEY_H
  | "i" => some .KEY_I
  | "j" => some .KEY_J
  | "k" => some .KEY_K
  | "l" => some .KEY_L
  | "m" => some .KEY_M
  | "n" => some .KEY_N
  | "o" => some .KEY_O
  | "p" => some .KEY_P
  | "q" => some .KEY_Q
  | "r" => some .KEY_R
  | "s" => some .KEY_S
  | "t" => some .KEY_T
  | "u" => some .KEY_U
  | "v" => some .KEY_V
  | "w" => some .KEY_W
  | "x" => some .KEY_X
  | "y" => some .KEY_Y
  | "z" => some .KEY_Z
  | "0" => some .KEY_0
  | "1" => some .KEY_1
  | "2" => some .KEY_2
  | "3" => some .KEY_3
  | "4" => some .KEY_4
  | "5" => some .KEY_5
  | "6" => some .KEY_6
  | "7" => some .KEY_7
  | "8" => some .KEY_8
  | "9" => some .KEY_9
  | "-" => some .KEY_MINUS
  | "=" => some .KEY_EQUAL
  | "\\" => some .KEY_BACKSLASH
  | "`" => some .KEY_GRAVE
  | "[" => some .KEY_LEFTBRACE
  | "]" => some .KEY_RIGHTBRACE
  | ";" => some .KEY_SEMICOLON
  | "\x27" => some .KEY_APOSTROPHE
  | "," => some .KEY_COMMA
  | "." => some .KEY_DOT
  | "/" => some .KEY_SLASH
  | "esc" => some .KEY_ESC
  | "tab" => some .KEY_TAB
  | "backspace" => some .KEY_BACKSPACE
  | "enter" => some .KEY_ENTER
  | "space" => some .KEY_SPACE
  | "home" => some .KEY_HOME
  | "end" => some .KEY_END
  | "pageup" => some .KEY_PAGEUP
  | "pagedown" => some .KEY_PAGEDOWN
  | "insert" => some .KEY_INSERT
  | "delete" => some .KEY_DELETE
  | "ctrl" => some .KEY_LEFTCTRL
  | "shift" => some .KEY_LEFTSHIFT
  | "alt" => some .KEY_LEFTALT
  | "meta" => some .KEY_LEFTMETA
  | _ => none

/-- Character-level model of Rust `str::split('+')` (src/config.rs line 90):
the list of chunks between `+` separators, with empty chunks kept, so that
the empty string yields one empty chunk and a lone `+` yields two. -/
def splitPlus : List Char → List (List Char)
  | [] => [[]]
  | c :: rest =>
    if c = '+' then [] :: splitPlus rest
    else
      match splitPlus rest with
      | t :: ts => (c :: t) :: ts
      | [] => [c] :: []

/-- Character-level model of Rust `str::trim` (src/config.rs line 90):
drop whitespace from both ends. -/
def trimChars (l : List Char) : List Char :=
  ((l.dropWhile Char.isWhitespace).reverse.dropWhile Char.isWhitespace).reverse

/-- Tokenization step of `ImmediateKeymap::try_from` (src/config.rs line 90):
split the raw string on `+` and trim every token. -/
def splitTrim (value : String) : List String :=
  (splitPlus value.toList).map (fun t => (trimChars t).asString)

/-- De-duplication loop of `ImmediateKeymap::try_from` (src/config.rs lines
91-96): push each part unless already present, keeping first-seen order. -/
def dedupKeep (l : List String) : List String :=
  l.foldl (fun acc p => if p ∈ acc then acc else acc ++ [p]) []

/-- The per-token code-collection loop of `ImmediateKeymap::try_from`
(src/config.rs lines 116-157): every token must be in the vocabulary,
otherwise the parse fails naming the offending token. -/
def lookupCodes : List String → Except String (List EV_KEY)
  | [] => .ok []
  | p :: rest =>
    match matchKey p with
    | some code =>
      match lookupCodes rest with
      | .ok codes => .ok (code :: codes)
      | .error e => .error e
    | none => .error (p ++ "不是有效的按键映射配置")

/-- Intermediate per-input action (`enum ImmediateKeymap`, src/config.rs
lines 80-86). `Fallback` is the spec's `InheritPrevious`, `None` is `Inert`,
`SwitchSchema` is `CycleProfile`, `Press` is `KeyChord`. -/
inductive ImmediateKeymap where
  | None
  | Press (codes : List EV_KEY)
  | SwitchSchema
  | Fallback
  deriving DecidableEq, Repr

/-- Parsing of one raw per-input keymap string
(`impl TryFrom<String> for ImmediateKeymap`, src/config.rs lines 87-159):
split on `+`, trim, de-duplicate, handle the three exclusive sentinels,
otherwise look every token up in the key vocabulary. -/
def ImmediateKeymap.tryFrom (value : String) : Except String ImmediateKeymap :=
  let parts := dedupKeep (splitTrim value)
  if "switchSchema" ∈ parts then
    if parts.length > 1 then
      .error "不能把switchSchema和其他键组合"
    else
      .ok ImmediateKeymap.SwitchSchema
  else if "fallback" ∈ parts then
    if parts.length > 1 then
      .error "不能把fallback和其他键组合"
    else
      .ok ImmediateKeymap.Fallback
  else if "none" ∈ parts then
    if parts.length > 1 then
      .error "不能把none和其他键组合"
    else
      .ok ImmediateKeymap.None
  else
    match lookupCodes parts with
    | .ok codes => .ok (ImmediateKeymap.Press codes)
    | .error e => .error e

/-- The 11 fixed logical inputs a keymap profile assigns an action to
(field names of `RawKeymapConfig`, src/config.rs lines 49-61). -/
inductive Input where
  | button0 | button1 | button2 | button3 | button4 | button5 | button6
  | button7 | ring0 | ring1 | ring_button
  deriving DecidableEq, Repr

/-- Raw per-profile keymap record (`struct RawKeymapConfig`, src/config.rs
lines 47-61): one raw string per logical input. -/
structure RawKeymapConfig where
  button0 : String
  button1 : String
  button2 : String
  button3 : String
  button4 : String
  button5 : String
  button6 : String
  button7 : String
  ring0 : String
  ring1 : String
  ring_button : String
  deriving DecidableEq, Repr

/-- Serde per-field default of `RawKeymapConfig` (src/config.rs lines 62-78):
every absent input string defaults to the literal "fallback". -/
def RawKeymapConfig.default : RawKeymapConfig :=
  ⟨"fallback", "fallback", "fallback", "fallback", "fallback", "fallback",
   "fallback", "fallback", "fallback", "fallback", "fallback"⟩

/-- Field access of a raw keymap record by logical input. -/
def RawKeymapConfig.get (r : RawKeymapConfig) : Input → String
  | .button0 => r.button0
  | .button1 => r.button1
  | .button2 => r.button2
  | .button3 => r.button3
  | .button4 => r.button4
  | .button5 => r.button5
  | .button6 => r.button6
  | .button7 => r.button7
  | .ring0 => r.ring0
  | .ring1 => r.ring1
  | .ring_button => r.ring_button

/-- Raw whole-document configuration (`struct RawConfig`, src/config.rs
lines 28-46), as it stands after TOML deserialization (TOML parsing itself
is a black box and is modelled as a parameter where needed). -/
structure RawConfig where
  x_max_value : Option Nat
  y_max_value : Option Nat
  x_map : Option (ℚ × ℚ)
  y_map : Option (ℚ × ℚ)
  keymaps : List RawKeymapConfig

/-- Intermediate per-profile keymap table (`struct ImmediateKeymapConfig`,
src/config.rs lines 162-174). -/
structure ImmediateKeymapConfig where
  button0 : ImmediateKeymap
  button1 : ImmediateKeymap
  button2 : ImmediateKeymap
  button3 : ImmediateKeymap
  button4 : ImmediateKeymap
  button5 : ImmediateKeymap
  button6 : ImmediateKeymap
  button7 : ImmediateKeymap
  ring0 : ImmediateKeymap
  ring1 : ImmediateKeymap
  ring_button : ImmediateKeymap
  deriving DecidableEq, Repr

/-- Field access of an intermediate keymap table by logical input. -/
def ImmediateKeymapConfig.get (c : ImmediateKeymapConfig) : Input → ImmediateKeymap
  | .button0 => c.button0
  | .button1 => c.button1
  | .button2 => c.button2
  | .button3 => c.button3
  | .button4 => c.button4
  | .button5 => c.button5
  | .button6 => c.button6
  | .button7 => c.button7
  | .ring0 => c.ring0
  | .ring1 => c.ring1
  | .ring_button => c.ring_button

/-- Conversion of one raw keymap record into its intermediate form
(`impl TryFrom<RawKeymapConfig> for ImmediateKeymapConfig`, src/config.rs
lines 175-183): parse each of the 11 strings, propagating the first error
in field order. -/
def ImmediateKeymapConfig.tryFromRaw (r : RawKeymapConfig) :
    Except String ImmediateKeymapConfig := do
  let button0 ← ImmediateKeymap.tryFrom r.button0
  let button1 ← ImmediateKeymap.tryFrom r.button1
  let button2 ← ImmediateKeymap.tryFrom r.button2
  let button3 ← ImmediateKeymap.tryFrom r.button3
  let button4 ← ImmediateKeymap.tryFrom r.button4
  let button5 ← ImmediateKeymap.tryFrom r.button5
  let button6 ← ImmediateKeymap.tryFrom r.button6
  let button7 ← ImmediateKeymap.tryFrom r.button7
  let ring0 ← ImmediateKeymap.tryFrom r.ring0
  let ring1 ← ImmediateKeymap.tryFrom r.ring1
  let ring_button ← ImmediateKeymap.tryFrom r.ring_button
  .ok ⟨button0, button1, button2, button3, button4, button5, button6,
       button7, ring0, ring1, ring_button⟩

/-- Per-field fallback resolution (body of the `resolve!` macro,
src/config.rs lines 186-194): a `Fallback` field takes the other profile's
value for the same field, anything else keeps its own. -/
def resolveField (a b : ImmediateKeymap) : ImmediateKeymap :=
  match a with
  | .Fallback => b
  | x => x

/-- Fallback resolution of one profile against the previous, already
resolved profile (`ImmediateKeymapConfig::resolve`, src/config.rs lines
184-200), applied to each of the 11 fields. -/
def ImmediateKeymapConfig.resolve (self other : ImmediateKeymapConfig) :
    ImmediateKeymapConfig :=
  ⟨resolveField self.button0 other.button0,
   resolveField self.button1 other.button1,
   resolveField self.button2 other.button2,
   resolveField self.button3 other.button3,
   resolveField self.button4 other.button4,
   resolveField self.button5 other.button5,
   resolveField self.button6 other.button6,
   resolveField self.button7 other.button7,
   resolveField self.ring0 other.ring0,
   resolveField self.ring1 other.ring1,
   resolveField self.ring_button other.ring_button⟩

/-- Final per-input action (`enum Keymap`, src/config.rs lines 224-230):
the intermediate `Fallback` marker is unrepresentable here. -/
inductive Keymap where
  | None
  | Press (codes : List EV_KEY)
  | SwitchSchema
  deriving DecidableEq, Repr

/-- Conversion from the intermediate action to the final action
(`impl TryFrom<ImmediateKeymap> for Keymap`, src/config.rs lines 231-241).
The source's `TryFrom` has no failing arm, so the embedding is total:
both `Fallback` and `None` map to the final `None` (the spec's `Inert`). -/
def Keymap.ofImmediate : ImmediateKeymap → Keymap
  | .Press codes => .Press codes
  | .SwitchSchema => .SwitchSchema
  | .Fallback => .None
  | .None => .None

/-- Final per-profile keymap table (`struct KeymapConfig`, src/config.rs
lines 210-223). -/
structure KeymapConfig where
  button0 : Keymap
  button1 : Keymap
  button2 : Keymap
  button3 : Keymap
  button4 : Keymap
  button5 : Keymap
  button6 : Keymap
  button7 : Keymap
  ring0 : Keymap
  ring1 : Keymap
  ring_button : Keymap
  deriving DecidableEq, Repr

/-- Field access of a final keymap table by logical input. -/
def KeymapConfig.get (c : KeymapConfig) : Input → Keymap
  | .button0 => c.button0
  | .button1 => c.button1
  | .button2 => c.button2
  | .button3 => c.button3
  | .button4 => c.button4
  | .button5 => c.button5
  | .button6 => c.button6
  | .button7 => c.button7
  | .ring0 => c.ring0
  | .ring1 => c.ring1
  | .ring_button => c.ring_button

/-- Conversion of a resolved intermediate profile into its final form
(`impl TryFrom<ImmediateKeymapConfig> for KeymapConfig`, src/config.rs
lines 242-250), total for the same reason as `Keymap.ofImmediate`. -/
def KeymapConfig.ofImmediate (c : ImmediateKeymapConfig) : KeymapConfig :=
  ⟨Keymap.ofImmediate c.button0,
   Keymap.ofImmediate c.button1,
   Keymap.ofImmediate c.button2,
   Keymap.ofImmediate c.button3,
   Keymap.ofImmediate c.button4,
   Keymap.ofImmediate c.button5,
   Keymap.ofImmediate c.button6,
   Keymap.ofImmediate c.button7,
   Keymap.ofImmediate c.ring0,
   Keymap.ofImmediate c.ring1,
   Keymap.ofImmediate c.ring_button⟩

/-- Final configuration snapshot (`struct Config`, src/config.rs lines
202-209). -/
structure Config where
  x_max_value : Nat
  y_max_value : Nat
  x_map : Option (ℚ × ℚ)
  y_map : Option (ℚ × ℚ)
  keymaps : List KeymapConfig
  deriving DecidableEq, Repr

/-- Derived `Default` of `Config` (src/config.rs line 202): zero axis
maxima, no axis ranges, empty profile list. -/
def Config.default : Config := ⟨0, 0, none, none, []⟩

/-- Axis-range validation (the `check_map_values!` macro, src/config.rs
lines 282-305): a declared `(min, max)` pair must satisfy `0 ≤ min ≤ 1`,
`0 ≤ max ≤ 1` and `min < max`; an absent pair passes. -/
def checkMapValues (fieldName : String) (v : Option (ℚ × ℚ)) :
    Except String Unit :=
  match v with
  | none => .ok ()
  | some (mn, mx) =>
    if ¬(0 ≤ mn ∧ mn ≤ 1) then
      .error (fieldName ++ "的最小值必须在0到1之间")
    else if ¬(0 ≤ mx ∧ mx ≤ 1) then
      .error (fieldName ++ "的最大值必须在0到1之间")
    else if mn ≥ mx then
      .error (fieldName ++ "的最小值必须小于最大值")
    else
      .ok ()

/-- The conditional resolution against the previous profile inside the
`Config::load` loop (`if let Some(prev) = prev { keymap.resolve(prev) }`,
src/config.rs lines 267-269): the first profile has no predecessor and is
kept as parsed. -/
def resolveStep (prev : Option ImmediateKeymapConfig)
    (k : ImmediateKeymapConfig) : ImmediateKeymapConfig :=
  match prev with
  | some p => k.resolve p
  | none => k

/-- The keymap-building loop of `Config::load` (src/config.rs lines
259-272): parse each raw record in order and resolve it against the
previous, already resolved profile (`prev`), short-circuiting on the first
parse error. -/
def loadKeymapsAux (prev : Option ImmediateKeymapConfig) :
    List RawKeymapConfig → Except String (List ImmediateKeymapConfig)
  | [] => .ok []
  | r :: rest =>
    match ImmediateKeymapConfig.tryFromRaw r with
    | .error e => .error e
    | .ok k =>
      match loadKeymapsAux (some (resolveStep prev k)) rest with
      | .error e => .error e
      | .ok ks => .ok (resolveStep prev k :: ks)

/-- Loading of an already-deserialized raw document (`Config::load` after
the `toml::from_str` step, src/config.rs lines 254-316): reject an empty
profile list, parse and resolve the keymaps, convert them to final form,
validate both axis ranges and assemble the snapshot with absent axis maxima
defaulted to 0. -/
def Config.loadRaw (raw : RawConfig) : Except String Config :=
  if raw.keymaps.isEmpty then
    .error "没有配置keymap"
  else
    match loadKeymapsAux none raw.keymaps with
    | .error e => .error e
    | .ok immediate_keymaps =>
      let keymaps := immediate_keymaps.map KeymapConfig.ofImmediate
      match checkMapValues "x_map" raw.x_map with
      | .error e => .error e
      | .ok _ =>
        match checkMapValues "y_map" raw.y_map with
        | .error e => .error e
        | .ok _ =>
          .ok ⟨raw.x_max_value.getD 0, raw.y_max_value.getD 0, raw.x_map,
               raw.y_map, keymaps⟩

/-- Whole `Config::load` (src/config.rs lines 252-317): file reading and
TOML deserialization are effectful black boxes, embedded as the outcome of
the read and a deserializer function; a read failure or parse failure is a
load failure. -/
def Config.load (readResult : Except String String)
    (parseToml : String → Except String RawConfig) : Except String Config :=
  match readResult with
  | .error e => .error e
  | .ok content =>
    match parseToml content with
    | .error e => .error e
    | .ok raw => Config.loadRaw raw

/-- Specification-side sequential parse of the raw profile list, without
the interleaved resolution of `loadKeymapsAux`; related to it by
`loadKeymapsAux_eq`. -/
def parseKeymapList : List RawKeymapConfig → Except String (List ImmediateKeymapConfig)
  | [] => .ok []
  | r :: rest =>
    match ImmediateKeymapConfig.tryFromRaw r with
    | .error e => .error e
    | .ok k =>
      match parseKeymapList rest with
      | .error e => .error e
      | .ok ks => .ok (k :: ks)

/-- Resolution pass separated from parsing: each profile after the first is
resolved against the previous resolved profile carried in `prev`. -/
def resolveAllAux (prev : Option ImmediateKeymapConfig) :
    List ImmediateKeymapConfig → List ImmediateKeymapConfig
  | [] => []
  | k :: rest =>
    resolveStep prev k :: resolveAllAux (some (resolveStep prev k)) rest

/-- Resolution pass over a whole parsed profile list (profile 0 has no
predecessor). -/
def resolveAll (ks : List ImmediateKeymapConfig) : List ImmediateKeymapConfig :=
  resolveAllAux none ks

/-- Configuration choice of `main` (src/main.rs lines 21-25): with a path,
load the file (the load outcome is a parameter); without a path, run with
`Config::default()`. -/
def mainInitialConfig (confPath : Option String)
    (load : String → Except String Config) : Except String Config :=
  match confPath with
  | some path => load path
  | none => .ok Config.default

/-- State guarded by the `CancelToken` mutex (`struct CancelTokenInner`,
src/cancel.rs lines 8-11): the cancelled flag and the ordered listener
list. Boxed listener closures are embedded as `Nat` identifiers; invoking a
listener is embedded as emitting its identifier into an output trace. -/
structure CancelTokenState where
  cancelled : Bool
  listeners : List Nat
  deriving DecidableEq, Repr

/-- Initial state built by `CancelToken::new` (src/cancel.rs lines 13-20). -/
def CancelTokenState.init : CancelTokenState := ⟨false, []⟩

/-- One mutex-protected operation on a `CancelToken`: registering a listener
(src/cancel.rs lines 22-28) or cancelling (src/cancel.rs lines 34-43). -/
inductive CancelOp where
  | registerCallback (id : Nat)
  | cancel
  deriving DecidableEq, Repr

/-- Effect of one operation on the token state, returning the new state and
the trace of listener invocations performed inside the call:
`register_callback` appends and invokes nothing; `cancel` is a no-op when
already cancelled, otherwise sets the flag and invokes every registered
listener in registration order. -/
def cancelStep (s : CancelTokenState) : CancelOp → CancelTokenState × List Nat
  | .registerCallback id => (⟨s.cancelled, s.listeners ++ [id]⟩, [])
  | .cancel =>
    if s.cancelled then
      (s, [])
    else
      (⟨true, s.listeners⟩, s.listeners)

/-- Sequential execution of a list of token operations, concatenating the
listener-invocation traces. -/
def cancelRun (s : CancelTokenState) : List CancelOp → CancelTokenState × List Nat
  | [] => (s, [])
  | op :: ops =>
    let r1 := cancelStep s op
    let r2 := cancelRun r1.1 ops
    (r2.1, r1.2 ++ r2.2)

/-- The listeners registered strictly before the first `cancel` of an
operation sequence, in registration order. -/
def regsBeforeFirstCancel : List CancelOp → List Nat
  | [] => []
  | .registerCallback id :: ops => id :: regsBeforeFirstCancel ops
  | .cancel :: _ => []

/-- All listener identifiers registered anywhere in an operation sequence. -/
def regIds : List CancelOp → List Nat
  | [] => []
  | .registerCallback id :: ops => id :: regIds ops
  | .cancel :: ops => regIds ops

/-- One wake-up of the epoll loop in `WatchConfigChangeTask::run`
(src/config.rs lines 411-438): either the cancel eventfd fired, or inotify
fired with a drained batch of events carrying optional file names. -/
inductive WatchWake where
  | cancelEvent
  | inotifyEvent (names : List (Option String))

/-- Observable outcome of handling one wake-up: whether the loop returned,
which callbacks were invoked with which snapshot (in order), and the last
successfully published configuration afterwards. -/
structure WatchStep where
  terminated : Bool
  delivered : List (Nat × Config)
  published : Option Config
  deriving DecidableEq, Repr

/-- Body of the `WatchConfigChangeTask::run` loop for one wake-up
(src/config.rs lines 411-438). Callback closures are embedded as `Nat`
identifiers in registration order; the epoll wait, the debounce sleep and
the post-sleep drain are abstracted into the `wake` input, and the outcome
of `Config::load` on the watched path is the `loadResult` input (consulted
only when a drained event names the watched file). On the cancel event the
loop returns; on an inotify batch that does not name the file it keeps
waiting; on a successful reload every callback receives the same new
snapshot; on a failed reload nothing is delivered and the previous
published configuration stands. -/
def handleWake (filename : String) (callbacks : List Nat)
    (published : Option Config) (wake : WatchWake)
    (loadResult : Except String Config) : WatchStep :=
  match wake with
  | .cancelEvent => ⟨true, [], published⟩
  | .inotifyEvent names =>
    let modified := names.any (fun n => n.getD "" = filename)
    if ¬modified then
      ⟨false, [], published⟩
    else
      match loadResult with
      | .ok conf => ⟨false, callbacks.map (fun cb => (cb, conf)), some conf⟩
      | .error _ => ⟨false, [], published⟩

/-- Witness document for the cascade claim: profile 0 binds button0 to the
key `a` and leaves ring0 as `fallback`, profiles 1 and 2 are all-default
(every input `fallback`). -/
def cascadeRawDoc : RawConfig :=
  ⟨none, none, none, none,
   [⟨"a", "none", "none", "none", "none", "none", "none", "none",
     "fallback", "none", "none"⟩,
    RawKeymapConfig.default, RawKeymapConfig.default]⟩

/-- Parsed intermediate form of the witness document's profile 0. -/
def cascadeImm0 : ImmediateKeymapConfig :=
  ⟨.Press [.KEY_A], .None, .None, .None, .None, .None, .None, .None,
   .Fallback, .None, .None⟩

/-- Parsed intermediate form of the witness document's all-default
profiles 1 and 2. -/
def cascadeImmFB : ImmediateKeymapConfig :=
  ⟨.Fallback, .Fallback, .Fallback, .Fallback, .Fallback, .Fallback,
   .Fallback, .Fallback, .Fallback, .Fallback, .Fallback⟩

/-- The single resolved profile shape all three witness profiles end in. -/
def cascadeProfile : KeymapConfig :=
  ⟨.Press [.KEY_A], .None, .None, .None, .None, .None, .None, .None,
   .None, .None, .None⟩

/-- The configuration the witness document loads to. -/
def cascadeCfg : Config :=
  ⟨0, 0, none, none, [cascadeProfile, cascadeProfile, cascadeProfile]⟩

/-! Helper lemmas about the token de-duplication loop. -/

theorem dedupKeep_foldl_spec (l acc : List String) :
    ∃ t, List.foldl (fun acc p => if p ∈ acc then acc else acc ++ [p]) acc l
        = acc ++ t
      ∧ t.Sublist l ∧ t.Nodup ∧ (∀ a, a ∈ t ↔ a ∈ l ∧ a ∉ acc) := by
  induction l generalizing acc with
  | nil => exact ⟨[], by simp⟩
  | cons x l ih =>
    by_cases hx : x ∈ acc
    · obtain ⟨t, ht, hsub, hnd, hmem⟩ := ih acc
      refine ⟨t, by simpa [hx] using ht, hsub.cons _, hnd, fun a => ?_⟩
      rw [hmem a]
      constructor
      · exact fun ⟨h1, h2⟩ => ⟨List.mem_cons_of_mem _ h1, h2⟩
      · rintro ⟨h1, h2⟩
        rcases List.mem_cons.mp h1 with rfl | h1
        · exact absurd hx h2
        · exact ⟨h1, h2⟩
    · obtain ⟨t, ht, hsub, hnd, hmem⟩ := ih (acc ++ [x])
      refine ⟨x :: t, ?_, hsub.cons₂ _, ?_, fun a => ?_⟩
      · simpa [hx, List.append_assoc] using ht
      · refine List.nodup_cons.mpr ⟨fun hxt => ?_, hnd⟩
        exact ((hmem x).mp hxt).2 (by simp)
      · constructor
        · intro h
          rcases List.mem_cons.mp h with rfl | h
          · exact ⟨List.mem_cons_self _ _, hx⟩
          · obtain ⟨h1, h2⟩ := (hmem a).mp h
            exact ⟨List.mem_cons_of_mem _ h1, fun hc => h2 (by simp [hc])⟩
        · rintro ⟨h1, h2⟩
          rcases List.mem_cons.mp h1 with rfl | h1
          · exact List.mem_cons_self _ _
          · by_cases hax : a = x
            · simp [hax]
            · exact List.mem_cons_of_mem _
                ((hmem a).mpr ⟨h1, by simp [h2, hax]⟩)

theorem dedupKeep_sublist (l : List String) : (dedupKeep l).Sublist l := by
  obtain ⟨t, ht, hsub, _, _⟩ := dedupKeep_foldl_spec l []
  simpa [dedupKeep, ht] using hsub

theorem dedupKeep_nodup (l : List String) : (dedupKeep l).Nodup := by
  obtain ⟨t, ht, _, hnd, _⟩ := dedupKeep_foldl_spec l []
  simpa [dedupKeep, ht] using hnd

theorem dedupKeep_mem (l : List String) (a : String) :
    a ∈ dedupKeep l ↔ a ∈ l := by
  obtain ⟨t, ht, _, _, hmem⟩ := dedupKeep_foldl_spec l []
  simp [dedupKeep, ht, hmem a]

/-! Helper lemma about the token-to-code lookup loop. -/

theorem lookupCodes_all_some (l : List String)
    (h : ∀ p ∈ l, (matchKey p).isSome) :
    lookupCodes l = .ok (l.filterMap matchKey) := by
  induction l with
  | nil => rfl
  | cons p rest ih =>
    obtain ⟨c, hc⟩ := Option.isSome_iff_exists.mp (h p (by simp))
    rw [lookupCodes, hc, ih fun q hq => h q (List.mem_cons_of_mem _ hq)]
    simp [List.filterMap_cons, hc]

/-- C3: if, after tokenizing on `+` and de-duplicating, the token set of a
per-input keymap string contains one of the sentinels `switchSchema`,
`fallback` or `none` together with at least one other distinct token, then
parsing that string fails with an error. -/
theorem keymap_sentinel_exclusive (s : String)
    (hsent : "switchSchema" ∈ dedupKeep (splitTrim s)
      ∨ "fallback" ∈ dedupKeep (splitTrim s)
      ∨ "none" ∈ dedupKeep (splitTrim s))
    (hlen : 1 < (dedupKeep (splitTrim s)).length) :
    ∃ e, ImmediateKeymap.tryFrom s = .error e := by
  unfold ImmediateKeymap.tryFrom
  by_cases h1 : "switchSchema" ∈ dedupKeep (splitTrim s)
  · exact ⟨"不能把switchSchema和其他键组合", by simp [h1, hlen]⟩
  · by_cases h2 : "fallback" ∈ dedupKeep (splitTrim s)
    · exact ⟨"不能把fallback和其他键组合", by simp [h1, h2, hlen]⟩
    · by_cases h3 : "none" ∈ dedupKeep (splitTrim s)
      · exact ⟨"不能把none和其他键组合", by simp [h1, h2, h3, hlen]⟩
      · rcases hsent with h | h | h
        · exact absurd h h1
        · exact absurd h h2
        · exact absurd h h3

/-- Witness for C3: the spec's three examples `"switchSchema+a"`,
`"fallback+a"` and `"none+a"` all fail to parse. -/
theorem keymap_sentinel_exclusive_witness :
    (∃ e, ImmediateKeymap.tryFrom "switchSchema+a" = .error e)
    ∧ (∃ e, ImmediateKeymap.tryFrom "fallback+a" = .error e)
    ∧ (∃ e, ImmediateKeymap.tryFrom "none+a" = .error e) :=
  ⟨keymap_sentinel_exclusive "switchSchema+a" (Or.inl (by decide)) (by decide),
   keymap_sentinel_exclusive "fallback+a" (Or.inr (Or.inl (by decide)))
     (by decide),
   keymap_sentinel_exclusive "none+a" (Or.inr (Or.inr (by decide)))
     (by decide)⟩

/-- C6: a per-input keymap string whose `+`-separated tokens are all
recognized key names (hence no sentinel) parses to a key chord holding the
corresponding key codes, with duplicate tokens removed and first-occurrence
order preserved: the parsed token list is duplicate-free, is a sublist of
the raw token stream (so relative order is the stream's), keeps exactly the
raw tokens, and the chord is its image under the key table. -/
theorem keymap_chord_parse (s : String)
    (hkeys : ∀ p ∈ dedupKeep (splitTrim s), (matchKey p).isSome)
    (hnosent : "switchSchema" ∉ dedupKeep (splitTrim s)
      ∧ "fallback" ∉ dedupKeep (splitTrim s)
      ∧ "none" ∉ dedupKeep (splitTrim s)) :
    ImmediateKeymap.tryFrom s
      = .ok (.Press ((dedupKeep (splitTrim s)).filterMap matchKey))
    ∧ (dedupKeep (splitTrim s)).Nodup
    ∧ (dedupKeep (splitTrim s)).Sublist (splitTrim s)
    ∧ (∀ a, a ∈ dedupKeep (splitTrim s) ↔ a ∈ splitTrim s) := by
  obtain ⟨h1, h2, h3⟩ := hnosent
  refine ⟨?_, dedupKeep_nodup _, dedupKeep_sublist _, dedupKeep_mem _⟩
  unfold ImmediateKeymap.tryFrom
  simp [h1, h2, h3, lookupCodes_all_some _ hkeys]

/-- Witness for C6: the spec's example `"ctrl+a+ctrl"` parses to the chord
`[ctrl, a]` — the second `ctrl` dropped, first-occurrence order kept. -/
theorem keymap_chord_parse_witness :
    ImmediateKeymap.tryFrom "ctrl+a+ctrl"
      = .ok (.Press [.KEY_LEFTCTRL, .KEY_A]) := by
  have h := (keymap_chord_parse "ctrl+a+ctrl" (by decide)
    ⟨by decide, by decide, by decide⟩).1
  rw [h]
  rfl

/-- C9: because token de-duplication happens before the sentinel
exclusivity check, a keymap string made of one sentinel repeated parses
successfully: `"none+none"` yields `Inert`, `"fallback+fallback"` yields
`InheritPrevious`, and `"switchSchema+switchSchema"` yields
`CycleProfile`. -/
theorem keymap_repeated_sentinel :
    ImmediateKeymap.tryFrom "none+none" = .ok .None
    ∧ ImmediateKeymap.tryFrom "fallback+fallback" = .ok .Fallback
    ∧ ImmediateKeymap.tryFrom "switchSchema+switchSchema" = .ok .SwitchSchema :=
  ⟨by rfl, by rfl, by rfl⟩

/-! Helper lemmas about the load pipeline. -/

theorem loadKeymapsAux_eq (raws : List RawKeymapConfig) :
    ∀ prev, loadKeymapsAux prev raws =
      match parseKeymapList raws with
      | .error e => .error e
      | .ok ks => .ok (resolveAllAux prev ks) := by
  induction raws with
  | nil => intro prev; rfl
  | cons r rest ih =>
    intro prev
    unfold loadKeymapsAux parseKeymapList
    cases ht : ImmediateKeymapConfig.tryFromRaw r with
    | error e => rfl
    | ok k =>
      dsimp only
      rw [ih (some (resolveStep prev k))]
      cases hp : parseKeymapList rest with
      | error e => rfl
      | ok ks => rfl

theorem resolveAllAux_length (ks : List ImmediateKeymapConfig) :
    ∀ prev, (resolveAllAux prev ks).length = ks.length := by
  induction ks with
  | nil => intro prev; rfl
  | cons k rest ih =>
    intro prev
    simp [resolveAllAux, ih]

theorem parseKeymapList_length (raws : List RawKeymapConfig) :
    ∀ ks, parseKeymapList raws = .ok ks → ks.length = raws.length := by
  induction raws with
  | nil =>
    intro ks h
    cases h
    rfl
  | cons r rest ih =>
    intro ks h
    unfold parseKeymapList at h
    cases ht : ImmediateKeymapConfig.tryFromRaw r with
    | error e => rw [ht] at h; cases h
    | ok k =>
      rw [ht] at h
      cases hp : parseKeymapList rest with
      | error e => rw [hp] at h; cases h
      | ok ks1 =>
        rw [hp] at h
        cases h
        simp [ih ks1 hp]

theorem loadRaw_ok (raw : RawConfig) (cfg : Config)
    (h : Config.loadRaw raw = .ok cfg) :
    raw.keymaps.isEmpty = false
    ∧ checkMapValues "x_map" raw.x_map = .ok ()
    ∧ checkMapValues "y_map" raw.y_map = .ok ()
    ∧ ∃ iks, loadKeymapsAux none raw.keymaps = .ok iks
      ∧ cfg = ⟨raw.x_max_value.getD 0, raw.y_max_value.getD 0, raw.x_map,
               raw.y_map, iks.map KeymapConfig.ofImmediate⟩ := by
  unfold Config.loadRaw at h
  by_cases hk : raw.keymaps.isEmpty
  · rw [if_pos hk] at h; cases h
  · rw [if_neg hk] at h
    cases hl : loadKeymapsAux none raw.keymaps with
    | error e => rw [hl] at h; cases h
    | ok iks =>
      rw [hl] at h
      cases hx : checkMapValues "x_map" raw.x_map with
      | error e => rw [hx] at h; cases h
      | ok u =>
        cases u
        rw [hx] at h
        cases hy : checkMapValues "y_map" raw.y_map with
        | error e => rw [hy] at h; cases h
        | ok u =>
          cases u
          rw [hy] at h
          cases h
          exact ⟨Bool.of_not_eq_true hk, rfl, rfl, iks, rfl, rfl⟩

theorem checkMapValues_ok_iff (f : String) (mn mx : ℚ) :
    checkMapValues f (some (mn, mx)) = .ok () ↔
      0 ≤ mn ∧ mn ≤ 1 ∧ 0 ≤ mx ∧ mx ≤ 1 ∧ mn < mx := by
  unfold checkMapValues
  dsimp only
  by_cases h1 : 0 ≤ mn ∧ mn ≤ 1
  · rw [if_neg (not_not_intro h1)]
    by_cases h2 : 0 ≤ mx ∧ mx ≤ 1
    · rw [if_neg (not_not_intro h2)]
      by_cases h3 : mn ≥ mx
      · rw [if_pos h3]
        constructor
        · intro h; cases h
        · rintro ⟨_, _, _, _, h5⟩
          exact absurd h3 (not_le.mpr h5)
      · rw [if_neg h3]
        exact ⟨fun _ => ⟨h1.1, h1.2, h2.1, h2.2, lt_of_not_ge h3⟩,
          fun _ => rfl⟩
    · rw [if_pos h2]
      constructor
      · intro h; cases h
      · rintro ⟨_, _, h3, h4, _⟩
        exact absurd ⟨h3, h4⟩ h2
  · rw [if_pos h1]
    constructor
    · intro h; cases h
    · rintro ⟨h3, h4, _⟩
      exact absurd ⟨h3, h4⟩ h1

theorem loadRaw_profiles (raw : RawConfig) (cfg : Config)
    (h : Config.loadRaw raw = .ok cfg) :
    cfg.keymaps.length = raw.keymaps.length ∧ raw.keymaps ≠ [] := by
  obtain ⟨hk, _, _, iks, hl, hcfg⟩ := loadRaw_ok raw cfg h
  rw [loadKeymapsAux_eq] at hl
  cases hp : parseKeymapList raw.keymaps with
  | error e => rw [hp] at hl; cases hl
  | ok ks =>
    rw [hp] at hl
    cases hl
    constructor
    · rw [hcfg]
      simp [List.length_map, resolveAllAux_length, parseKeymapList_length _ _ hp]
    · intro hnil
      rw [hnil] at hk
      cases hk

/-! Helper lemmas about the cancel-token state machine. -/

theorem cancelRun_cancelled (ops : List CancelOp) :
    ∀ l, (cancelRun ⟨true, l⟩ ops).2 = []
      ∧ ((cancelRun ⟨true, l⟩ ops).1).cancelled = true := by
  induction ops with
  | nil => exact fun l => ⟨rfl, rfl⟩
  | cons op ops ih =>
    intro l
    cases op with
    | registerCallback id => simpa [cancelRun, cancelStep] using ih (l ++ [id])
    | cancel => simpa [cancelRun, cancelStep] using ih l

theorem cancelRun_trace (ops : List CancelOp) :
    ∀ l, CancelOp.cancel ∈ ops →
      (cancelRun ⟨false, l⟩ ops).2 = l ++ regsBeforeFirstCancel ops := by
  induction ops with
  | nil => intro l h; cases h
  | cons op ops ih =>
    intro l h
    cases op with
    | registerCallback id =>
      have hmem : CancelOp.cancel ∈ ops := by
        rcases List.mem_cons.mp h with h | h
        · cases h
        · exact h
      simp [cancelRun, cancelStep, regsBeforeFirstCancel, ih (l ++ [id]) hmem]
    | cancel =>
      simp [cancelRun, cancelStep, regsBeforeFirstCancel,
        (cancelRun_cancelled ops l).1]

theorem regsBefore_append_cancel (ops1 rest : List CancelOp) (a : Nat)
    (h : a ∈ regsBeforeFirstCancel (ops1 ++ CancelOp.cancel :: rest)) :
    a ∈ regIds ops1 := by
  induction ops1 with
  | nil => cases h
  | cons op ops1 ih =>
    cases op with
    | registerCallback id =>
      rcases List.mem_cons.mp h with rfl | h
      · exact List.mem_cons_self _ _
      · exact List.mem_cons_of_mem _ (ih h)
    | cancel => cases h

/-- C2: for every sequence of register/cancel operations containing at
least one `cancel`, the complete trace of listener invocations is exactly
the listeners registered before the first `cancel`, in registration order —
each invoked exactly once in total, no matter how many further `cancel`
calls occur — and the cancelled flag, once true, is never reset by any
operation. -/
theorem cancel_idempotent_single_delivery :
    (∀ ops : List CancelOp, CancelOp.cancel ∈ ops →
      (cancelRun CancelTokenState.init ops).2 = regsBeforeFirstCancel ops)
    ∧ (∀ (s : CancelTokenState) (op : CancelOp), s.cancelled = true →
      ((cancelStep s op).1).cancelled = true) := by
  constructor
  · intro ops h
    simpa [CancelTokenState.init] using cancelRun_trace ops [] h
  · intro s op h
    cases op with
    | registerCallback id => simpa [cancelStep] using h
    | cancel => simp [cancelStep, h]

/-- Witness for C2: two listeners registered before a first cancel are each
delivered exactly once even though `cancel` runs three times and a third
listener registers in between, and a cancelled state stays cancelled. -/
theorem cancel_idempotent_single_delivery_witness :
    (cancelRun CancelTokenState.init
      [CancelOp.registerCallback 0, CancelOp.registerCallback 1,
       CancelOp.cancel, CancelOp.cancel, CancelOp.registerCallback 2,
       CancelOp.cancel]).2 = [0, 1]
    ∧ ((cancelStep ⟨true, [5]⟩ CancelOp.cancel).1).cancelled = true := by
  constructor
  · rw [cancel_idempotent_single_delivery.1 _ (by decide)]
    rfl
  · exact cancel_idempotent_single_delivery.2 ⟨true, [5]⟩ CancelOp.cancel rfl

/-- C5: a listener registered only after a `cancel` has already set the
cancelled flag is never invoked — neither at registration nor by any later
`cancel` call. -/
theorem late_registration_no_delivery (ops1 ops2 : List CancelOp) (id : Nat)
    (h : id ∉ regIds ops1) :
    id ∉ (cancelRun CancelTokenState.init
      (ops1 ++ CancelOp.cancel :: CancelOp.registerCallback id :: ops2)).2 := by
  have hmem : CancelOp.cancel ∈ ops1 ++ CancelOp.cancel ::
      CancelOp.registerCallback id :: ops2 :=
    List.mem_append_right _ (List.mem_cons_self _ _)
  have ht := cancelRun_trace _ [] hmem
  intro hin
  rw [CancelTokenState.init] at hin
  rw [ht] at hin
  exact h (regsBefore_append_cancel _ _ _ (by simpa using hin))

/-- Witness for C5: listener 1, registered after the first cancel, never
appears in the invocation trace even though a second cancel follows. -/
theorem late_registration_no_delivery_witness :
    (1 : Nat) ∉ (cancelRun CancelTokenState.init
      [CancelOp.registerCallback 0, CancelOp.cancel,
       CancelOp.registerCallback 1, CancelOp.cancel]).2 :=
  late_registration_no_delivery [CancelOp.registerCallback 0]
    [CancelOp.cancel] 1 (by decide)

/-- C7: for every declared axis range `(min, max)` in `xMap` or `yMap`,
loading fails when `min` or `max` lies outside `[0, 1]` or `min ≥ max`;
values are never clamped: a successful load stores both declared ranges
unchanged, and a range with `0 ≤ min < max ≤ 1` passes the range check. -/
theorem axis_range_validation :
    (∀ (raw : RawConfig) (mn mx : ℚ),
      (raw.x_map = some (mn, mx) ∨ raw.y_map = some (mn, mx)) →
      (mn < 0 ∨ 1 < mn ∨ mx < 0 ∨ 1 < mx ∨ mx ≤ mn) →
      ∃ e, Config.loadRaw raw = .error e)
    ∧ (∀ (raw : RawConfig) (cfg : Config), Config.loadRaw raw = .ok cfg →
      cfg.x_map = raw.x_map ∧ cfg.y_map = raw.y_map)
    ∧ (∀ (f : String) (mn mx : ℚ), 0 ≤ mn → mn < mx → mx ≤ 1 →
      checkMapValues f (some (mn, mx)) = .ok ()) := by
  refine ⟨?_, ?_, ?_⟩
  · intro raw mn mx hmap hbad
    cases hload : Config.loadRaw raw with
    | error e => exact ⟨e, rfl⟩
    | ok cfg =>
      obtain ⟨_, hx, hy, _⟩ := loadRaw_ok raw cfg hload
      exfalso
      rcases hmap with hm | hm
      · rw [hm] at hx
        obtain ⟨a, b, c, d, e⟩ := (checkMapValues_ok_iff _ _ _).mp hx
        rcases hbad with h | h | h | h | h <;> linarith
      · rw [hm] at hy
        obtain ⟨a, b, c, d, e⟩ := (checkMapValues_ok_iff _ _ _).mp hy
        rcases hbad with h | h | h | h | h <;> linarith
  · intro raw cfg hload
    obtain ⟨_, _, _, iks, _, hcfg⟩ := loadRaw_ok raw cfg hload
    rw [hcfg]
    exact ⟨rfl, rfl⟩
  · intro f mn mx h1 h2 h3
    exact (checkMapValues_ok_iff f mn mx).mpr ⟨h1, by linarith, by linarith,
      h3, h2⟩

/-- Witness for C7: the spec's examples — `xMap = (0.5, 0.2)` fails to load
(min ≥ max), `xMap = (-0.1, 0.5)` fails to load (out of `[0, 1]`), and the
range `(0.1, 0.9)` passes the range check. -/
theorem axis_range_validation_witness :
    (∃ e, Config.loadRaw
      ⟨none, none, some (1/2, 1/5), none, [RawKeymapConfig.default]⟩
      = .error e)
    ∧ (∃ e, Config.loadRaw
      ⟨none, none, some (-(1/10), 1/2), none, [RawKeymapConfig.default]⟩
      = .error e)
    ∧ checkMapValues "x_map" (some (1/10, 9/10)) = .ok () :=
  ⟨axis_range_validation.1 _ (1/2) (1/5) (Or.inl rfl)
      (Or.inr (Or.inr (Or.inr (Or.inr (by norm_num))))),
   axis_range_validation.1 _ (-(1/10)) (1/2) (Or.inl rfl)
      (Or.inl (by norm_num)),
   axis_range_validation.2.2 "x_map" (1/10) (9/10) (by norm_num)
      (by norm_num) (by norm_num)⟩

/-- C8: loading fails whenever the file cannot be read, and for every
document whose profile list is empty; a successfully loaded configuration
never has zero profiles. -/
theorem load_requires_profiles :
    (∀ (e : String) (parseToml : String → Except String RawConfig),
      ∃ e2, Config.load (.error e) parseToml = .error e2)
    ∧ (∀ raw : RawConfig, raw.keymaps = [] →
      ∃ e, Config.loadRaw raw = .error e)
    ∧ (∀ (readResult : Except String String)
        (parseToml : String → Except String RawConfig) (cfg : Config),
      Config.load readResult parseToml = .ok cfg → cfg.keymaps ≠ []) := by
  refine ⟨fun e parseToml => ⟨e, rfl⟩, ?_, ?_⟩
  · intro raw hnil
    refine ⟨"没有配置keymap", ?_⟩
    unfold Config.loadRaw
    rw [if_pos (by rw [hnil]; rfl)]
  · intro readResult parseToml cfg hload
    cases readResult with
    | error e => cases hload
    | ok content =>
      unfold Config.load at hload
      dsimp only at hload
      cases hp : parseToml content with
      | error e => rw [hp] at hload; cases hload
      | ok raw =>
        rw [hp] at hload
        intro hnil
        have hlen := (loadRaw_profiles raw cfg hload).1
        have hne := (loadRaw_profiles raw cfg hload).2
        rw [hnil] at hlen
        exact hne (List.length_eq_zero.mp hlen.symm)

/-- Witness for C8: a concrete unreadable file fails, a concrete empty
profile list fails, and a concrete successful load has a profile. -/
theorem load_requires_profiles_witness :
    (∃ e2, Config.load (.error "io error") (fun _ => .error "unused")
      = .error e2)
    ∧ (∃ e, Config.loadRaw ⟨some 5, none, none, none, []⟩ = .error e)
    ∧ ((Config.load (.ok "doc")
        (fun _ => .ok ⟨none, none, none, none, [RawKeymapConfig.default]⟩)
        = .ok ⟨0, 0, none, none,
            [⟨.None, .None, .None, .None, .None, .None, .None, .None, .None,
              .None, .None⟩]⟩)
      ∧ ¬([⟨.None, .None, .None, .None, .None, .None, .None, .None, .None,
              .None, .None⟩] = ([] : List KeymapConfig))) := by
  refine ⟨load_requires_profiles.1 "io error" _,
    load_requires_profiles.2.1 _ rfl, by rfl, ?_⟩
  have h := load_requires_profiles.2.2 (.ok "doc")
    (fun _ => .ok ⟨none, none, none, none, [RawKeymapConfig.default]⟩)
    ⟨0, 0, none, none,
      [⟨.None, .None, .None, .None, .None, .None, .None, .None, .None,
        .None, .None⟩]⟩ (by rfl)
  exact h

/-- C10: the configuration `main` runs with when no path is given is
`Config::default()`: an empty profile list, zero axis maxima and no axis
ranges — so the at-least-one-profile invariant that `Config::load` enforces
(every loaded configuration has a nonempty profile list) does not hold for
the no-path default configuration. -/
theorem default_config_empty_profiles :
    Config.default.keymaps = []
    ∧ Config.default.x_max_value = 0
    ∧ Config.default.y_max_value = 0
    ∧ Config.default.x_map = none
    ∧ Config.default.y_map = none
    ∧ (∀ ld : String → Except String Config,
      mainInitialConfig none ld = .ok Config.default)
    ∧ (∀ (raw : RawConfig) (cfg : Config),
      Config.loadRaw raw = .ok cfg → cfg.keymaps ≠ []) := by
  refine ⟨rfl, rfl, rfl, rfl, rfl, fun ld => rfl, ?_⟩
  intro raw cfg hload hnil
  have hlen := (loadRaw_profiles raw cfg hload).1
  have hne := (loadRaw_profiles raw cfg hload).2
  rw [hnil] at hlen
  exact hne (List.length_eq_zero.mp hlen.symm)

/-- Witness for C10: applying the invariant to a concrete loadable document
shows `Config::default()` can never be the result of a successful load, its
profile list being empty. -/
theorem default_config_empty_profiles_witness :
    Config.default.keymaps = []
    ∧ mainInitialConfig none (fun _ => .error "e") = .ok Config.default
    ∧ ¬(Config.loadRaw ⟨none, none, none, none, [RawKeymapConfig.default]⟩
        = .ok Config.default) := by
  refine ⟨default_config_empty_profiles.1,
    default_config_empty_profiles.2.2.2.2.2.1 _, fun h => ?_⟩
  exact default_config_empty_profiles.2.2.2.2.2.2 _ _ h
    default_config_empty_profiles.1

/-- C4: in the watcher loop body, a failed reload of a modified
configuration file delivers nothing to the callbacks, leaves the previously
published configuration in place and keeps the loop running, while a
successful reload delivers the same new snapshot to every registered
callback in registration order. -/
theorem watch_reload_delivery :
    (∀ (filename : String) (callbacks : List Nat)
        (published : Option Config) (names : List (Option String))
        (e : String),
      handleWake filename callbacks published (.inotifyEvent names)
          (.error e)
        = ⟨false, [], published⟩)
    ∧ (∀ (filename : String) (callbacks : List Nat)
        (published : Option Config) (names : List (Option String))
        (conf : Config),
      (names.any fun n => n.getD "" = filename) = true →
      handleWake filename callbacks published (.inotifyEvent names)
          (.ok conf)
        = ⟨false, callbacks.map (fun cb => (cb, conf)), some conf⟩) := by
  constructor
  · intro filename callbacks published names e
    unfold handleWake
    by_cases hm : (names.any fun n => n.getD "" = filename) = true
    · simp [hm]
    · simp [hm]
  · intro filename callbacks published names conf hm
    unfold handleWake
    simp [hm]

/-- Witness for C4: with two registered callbacks and an event batch naming
the watched file, a failed reload delivers nothing and keeps the old
snapshot, and a successful reload delivers the new snapshot to both
callbacks in order. -/
theorem watch_reload_delivery_witness :
    handleWake "c.toml" [0, 1] (some Config.default)
        (.inotifyEvent [some "c.toml"]) (.error "bad")
      = ⟨false, [], some Config.default⟩
    ∧ handleWake "c.toml" [0, 1] none (.inotifyEvent [some "c.toml"])
        (.ok Config.default)
      = ⟨false, [(0, Config.default), (1, Config.default)],
          some Config.default⟩ := by
  constructor
  · exact watch_reload_delivery.1 "c.toml" [0, 1] (some Config.default)
      [some "c.toml"] "bad"
  · rw [watch_reload_delivery.2 "c.toml" [0, 1] none [some "c.toml"]
      Config.default (by decide)]
    rfl

/-! Helper lemmas for the fallback-cascade claim. -/

theorem resolve_get (a b : ImmediateKeymapConfig) (inp : Input) :
    (a.resolve b).get inp = resolveField (a.get inp) (b.get inp) := by
  cases inp <;> rfl

theorem ofImmediate_get (c : ImmediateKeymapConfig) (inp : Input) :
    (KeymapConfig.ofImmediate c).get inp = Keymap.ofImmediate (c.get inp) := by
  cases inp <;> rfl

theorem resolveAllAux_zero (ks : List ImmediateKeymapConfig)
    (prev : Option ImmediateKeymapConfig) :
    (resolveAllAux prev ks)[0]? = ks[0]?.map (resolveStep prev) := by
  cases ks <;> simp [resolveAllAux]

theorem resolveAllAux_succ (ks : List ImmediateKeymapConfig) :
    ∀ (prev : Option ImmediateKeymapConfig) (i : Nat)
      (kRaw rPrev : ImmediateKeymapConfig),
      ks[i+1]? = some kRaw →
      (resolveAllAux prev ks)[i]? = some rPrev →
      (resolveAllAux prev ks)[i+1]? = some (kRaw.resolve rPrev) := by
  induction ks with
  | nil =>
    intro prev i kRaw rPrev h1 _
    simp at h1
  | cons k rest ih =>
    intro prev i kRaw rPrev h1 h2
    cases i with
    | zero =>
      simp only [resolveAllAux, List.getElem?_cons_succ,
        List.getElem?_cons_zero, Option.some.injEq] at h1 h2 ⊢
      rw [← h2, resolveAllAux_zero, h1]
      rfl
    | succ n =>
      simp only [resolveAllAux, List.getElem?_cons_succ] at h1 h2 ⊢
      exact ih (some (resolveStep prev k)) n kRaw rPrev h1 h2

/-- C1: for every raw document accepted by `Config::load` whose profile
list parses to the intermediate profiles `imms`, fallback resolution
cascades in order: for every profile index `i > 0` and every one of the 11
inputs, an input parsed as `Fallback` (`InheritPrevious`) in profile `i`
receives the already-resolved value of that same input from profile `i-1`
in the returned configuration (hence transitively the nearest concrete
ancestor's action); an input parsed as `Fallback` in profile 0 becomes
`None` (`Inert`); and every action of the returned configuration is `None`,
`Press` or `SwitchSchema` — no `InheritPrevious` marker remains. -/
theorem config_load_fallback_cascade (raw : RawConfig) (cfg : Config)
    (imms : List ImmediateKeymapConfig)
    (hload : Config.loadRaw raw = .ok cfg)
    (hparse : parseKeymapList raw.keymaps = .ok imms) :
    (∀ (i : Nat) (inp : Input) (kIm : ImmediateKeymapConfig)
        (pPrev pCur : KeymapConfig),
      imms[i+1]? = some kIm →
      cfg.keymaps[i]? = some pPrev →
      cfg.keymaps[i+1]? = some pCur →
      kIm.get inp = .Fallback →
      pCur.get inp = pPrev.get inp)
    ∧ (∀ (inp : Input) (kIm : ImmediateKeymapConfig) (p0 : KeymapConfig),
      imms[0]? = some kIm →
      cfg.keymaps[0]? = some p0 →
      kIm.get inp = .Fallback →
      p0.get inp = .None)
    ∧ (∀ p ∈ cfg.keymaps, ∀ inp : Input,
      p.get inp = .None ∨ (∃ codes, p.get inp = .Press codes)
        ∨ p.get inp = .SwitchSchema) := by
  obtain ⟨hne, hx, hy, iks, hl, hcfg⟩ := loadRaw_ok raw cfg hload
  rw [loadKeymapsAux_eq, hparse] at hl
  cases hl
  have hkm : cfg.keymaps
      = (resolveAllAux none imms).map KeymapConfig.ofImmediate := by
    rw [hcfg]
  refine ⟨?_, ?_, ?_⟩
  · intro i inp kIm pPrev pCur h1 h2 h3 hfb
    rw [hkm, List.getElem?_map] at h2 h3
    obtain ⟨rPrev, hrPrev, hpPrev⟩ := Option.map_eq_some'.mp h2
    obtain ⟨rCur, hrCur, hpCur⟩ := Option.map_eq_some'.mp h3
    have hsucc := resolveAllAux_succ imms none i kIm rPrev h1 hrPrev
    rw [hrCur] at hsucc
    obtain rfl : rCur = kIm.resolve rPrev := by
      injection hsucc with h
    rw [← hpPrev, ← hpCur, ofImmediate_get, ofImmediate_get, resolve_get,
      hfb]
    rfl
  · intro inp kIm p0 h1 h2 hfb
    rw [hkm, List.getElem?_map] at h2
    obtain ⟨r0, hr0, hp0⟩ := Option.map_eq_some'.mp h2
    rw [resolveAllAux_zero, h1] at hr0
    obtain rfl : r0 = kIm := by
      injection hr0 with h
      exact h.symm
    rw [← hp0, ofImmediate_get, hfb]
    rfl
  · intro p hp inp
    cases h : p.get inp with
    | None => exact Or.inl rfl
    | Press codes => exact Or.inr (Or.inl ⟨codes, rfl⟩)
    | SwitchSchema => exact Or.inr (Or.inr rfl)

/-- Witness for C1: the witness document loads successfully; by the cascade
theorem, button0 of profile 2 inherits through profile 1 from profile 0's
concrete `Press [a]`, and ring0, left `fallback` in profile 0, resolves to
`Inert`. -/
theorem config_load_fallback_cascade_witness :
    Config.loadRaw cascadeRawDoc = .ok cascadeCfg
    ∧ cascadeProfile.get Input.button0 = Keymap.Press [EV_KEY.KEY_A]
    ∧ cascadeProfile.get Input.ring0 = Keymap.None := by
  have h := config_load_fallback_cascade cascadeRawDoc cascadeCfg
    [cascadeImm0, cascadeImmFB, cascadeImmFB] (by rfl) (by rfl)
  refine ⟨by rfl, ?_, ?_⟩
  · have h21 := h.1 1 Input.button0 cascadeImmFB cascadeProfile
      cascadeProfile (by rfl) (by rfl) (by rfl) (by rfl)
    have h10 := h.1 0 Input.button0 cascadeImmFB cascadeProfile
      cascadeProfile (by rfl) (by rfl) (by rfl) (by rfl)
    exact h21.trans (h10.trans (by rfl))
  · exact h.2.1 Input.ring0 cascadeImm0 cascadeProfile (by rfl) (by rfl)
      (by rfl)
